import Mathlib

/-!
Verification of the EXPRPRT expense-report backend (Rust, `src/backend`).

This file shallowly embeds the data model (`src/backend/src/domain/models.rs`),
the policy engine (`src/backend/src/domain/policy.rs`) and the service layer
(`src/backend/src/services/{expenses,approvals,finance}.rs`) and proves or
refutes the specification's claims about them.

Modelling conventions:
* UUIDs are `Nat`; fresh UUIDs (`Uuid::new_v4()`) become explicit parameters.
* `chrono::NaiveDate` is modelled as a `Nat` via `mkDate y m d = y*10000 + m*100 + d`,
  which preserves the total order of calendar dates for valid dates;
  timestamps (`Utc::now()`) become an explicit `now : Nat` parameter.
* `i64` / `i32` amounts and versions are `Int`.
* The database is an explicit `Db` record of row lists; every service call is a
  function from `Db` to `Except ServiceError (Db × result)`. An `Except.error`
  result means the surrounding SQL transaction was dropped or rolled back, so
  the pre-state stands: `postDb` interprets a call's outcome as the committed
  state.
* The external NetSuite adapter call and the possible failure of an explicit
  rollback are modelled as parameters (`adapter : Except String NetSuiteResponse`,
  `rollback_err : Option String`), since they are external collaborators.
-/

namespace Exprprt

/-- `domain/models.rs`: employee role enum. -/
inductive Role where
  | Employee
  | Manager
  | Finance
  | Admin
deriving DecidableEq, Repr

/-- `domain/models.rs`: report status enum
(`draft`, `submitted`, `manager_approved`, `finance_finalized`, `needs_changes`, `denied`). -/
inductive ReportStatus where
  | Draft
  | Submitted
  | ManagerApproved
  | FinanceFinalized
  | NeedsChanges
  | Denied
deriving DecidableEq, Repr

/-- `domain/models.rs`: expense category enum. -/
inductive ExpenseCategory where
  | Airfare
  | Lodging
  | Meal
  | GroundTransport
  | Mileage
  | Supplies
  | Other
deriving DecidableEq, Repr

/-- `domain/models.rs`: approval decision enum. -/
inductive ApprovalStatus where
  | Approved
  | Denied
  | NeedsChanges
deriving DecidableEq, Repr

/-- Date encoding of `chrono::NaiveDate`: `y*10000 + m*100 + d`, order-preserving
on valid calendar dates (the only operation the embedded code performs on dates
is comparison). -/
abbrev Date := Nat

/-- Builds the `Nat` encoding of a calendar date. -/
def mkDate (y m d : Nat) : Date := y * 10000 + m * 100 + d

/-- `domain/models.rs`: `ExpenseItem` row. -/
structure ExpenseItem where
  id : Nat
  report_id : Nat
  expense_date : Date
  category : ExpenseCategory
  gl_account_id : Option Nat
  description : Option String
  attendees : Option String
  location : Option String
  amount_cents : Int
  reimbursable : Bool
  payment_method : Option String
  is_policy_exception : Bool
deriving DecidableEq, Repr

/-- `domain/models.rs`: `PolicyCap` row. -/
structure PolicyCap where
  id : Nat
  policy_key : String
  category : ExpenseCategory
  limit_type : String
  amount_cents : Int
  notes : Option String
  active_from : Date
  active_to : Option Date
deriving DecidableEq, Repr

/-- `domain/policy.rs`: `PolicyEvaluation`.

The `warnings` field and the `merge` method below are referenced by
`aggregate_policy_evaluation` in `services/expenses.rs` but are absent from the
copy of `domain/policy.rs` provided under `src/`; they are modelled from the
spec (§4.3: the aggregate result is a flat `is_valid`/`violations`/`warnings`
record, and warnings are non-blocking). All constructors in `policy.rs` leave
`warnings` empty. -/
structure PolicyEvaluation where
  is_valid : Bool
  violations : List String
  warnings : List String
deriving DecidableEq, Repr

/-- `PolicyEvaluation::ok()`. -/
def PolicyEvaluation.ok : PolicyEvaluation :=
  { is_valid := true, violations := [], warnings := [] }

/-- `PolicyEvaluation::with_violation(message)`. -/
def PolicyEvaluation.with_violation (message : String) : PolicyEvaluation :=
  { is_valid := false, violations := [message], warnings := [] }

/-- Modelled from the spec: `PolicyEvaluation::merge`, used by
`aggregate_policy_evaluation` in `services/expenses.rs` but missing from the
provided `domain/policy.rs`. Per spec §4.3 the orchestrator merges per-item
results into one aggregate: validity is conjunctive, violations and warnings
accumulate. -/
def PolicyEvaluation.merge (a b : PolicyEvaluation) : PolicyEvaluation :=
  { is_valid := a.is_valid && b.is_valid
    violations := a.violations ++ b.violations
    warnings := a.warnings ++ b.warnings }

/-- `policy.rs::cap_active`: `date >= active_from && active_to.map(|d| date <= d).unwrap_or(true)`. -/
def cap_active (cap : PolicyCap) (date : Date) : Bool :=
  let after_start := decide (cap.active_from ≤ date)
  let before_end := (cap.active_to.map fun d => decide (date ≤ d)).getD true
  after_start && before_end

/-- Renders a cent amount as dollars with two decimals, modelling the Rust
`format!("{:.2}", cents as f64 / 100.0)` for nonnegative amounts whose value is
exactly representable (which holds for the integer cent amounts the claims
evaluate). -/
def renderDollars (cents : Int) : String :=
  let n := cents.toNat
  let frac := n % 100
  toString (n / 100) ++ "." ++ (if frac < 10 then "0" ++ toString frac else toString frac)

/-- `policy.rs::check_meal`: one violation per Meal cap that is active on the
item's date and exceeded by the item's amount. -/
def check_meal (item : ExpenseItem) (caps : List PolicyCap) : PolicyEvaluation :=
  let violations :=
    (caps.filter fun c =>
        c.category == ExpenseCategory.Meal
          && cap_active c item.expense_date
          && decide (item.amount_cents > c.amount_cents)).map
      fun cap => "Meal exceeds per-diem limit of $" ++ renderDollars cap.amount_cents
  if violations.isEmpty then PolicyEvaluation.ok
  else { is_valid := false, violations := violations, warnings := [] }

/-- `policy.rs::check_mileage`: first active Mileage cap only; the item amount
is the already-computed reimbursement. -/
def check_mileage (item : ExpenseItem) (caps : List PolicyCap) : PolicyEvaluation :=
  match caps.find? (fun c => c.category == ExpenseCategory.Mileage && cap_active c item.expense_date) with
  | none => PolicyEvaluation.ok
  | some cap =>
    if item.amount_cents ≤ cap.amount_cents then PolicyEvaluation.ok
    else PolicyEvaluation.with_violation "Mileage exceeds configured reimbursement rate"

/-- `policy.rs::evaluate_item`: dispatch on category; categories other than
Meal and Mileage are always valid. -/
def evaluate_item (item : ExpenseItem) (caps : List PolicyCap) : PolicyEvaluation :=
  match item.category with
  | ExpenseCategory.Meal => check_meal item caps
  | ExpenseCategory.Mileage => check_mileage item caps
  | _ => PolicyEvaluation.ok

/-- Warning text attached by `aggregate_policy_evaluation` for a
policy-exception item (`services/expenses.rs`). -/
def exceptionWarning (item : ExpenseItem) : String :=
  "Expense item " ++ toString item.id ++ " marked as a policy exception"

/-- `services/expenses.rs::aggregate_policy_evaluation`: fold each item's
evaluation into one result, adding a warning for items flagged
`is_policy_exception`. -/
def aggregate_policy_evaluation (items : List ExpenseItem) (caps : List PolicyCap) :
    PolicyEvaluation :=
  items.foldl
    (fun evaluation item =>
      let ev := evaluation.merge (evaluate_item item caps)
      if item.is_policy_exception then
        { ev with warnings := ev.warnings ++ [exceptionWarning item] }
      else ev)
    PolicyEvaluation.ok

/-- `domain/models.rs`: `ExpenseReport` row. -/
structure ReportRow where
  id : Nat
  employee_id : Nat
  reporting_period_start : Date
  reporting_period_end : Date
  status : ReportStatus
  total_amount_cents : Int
  total_reimbursable_cents : Int
  currency : String
  version : Int
  created_at : Nat
  updated_at : Nat
deriving DecidableEq, Repr

/-- `domain/models.rs`: `Approval` row. -/
structure ApprovalRow where
  id : Nat
  report_id : Nat
  approver_id : Nat
  role : Role
  status : ApprovalStatus
  comments : Option String
  policy_exception_notes : Option String
  created_at : Nat
deriving DecidableEq, Repr

/-- `infrastructure/netsuite.rs`: `NetSuiteResponse` from the export adapter. -/
structure NetSuiteResponse where
  succeeded : Bool
  reference : Option String
  message : Option String
deriving DecidableEq, Repr

/-- `domain/models.rs`: `NetSuiteBatch` row (the serialized adapter response is
kept structured rather than as JSON text). -/
structure BatchRow where
  id : Nat
  batch_reference : String
  finalized_by : Nat
  finalized_at : Nat
  status : String
  exported_at : Option Nat
  netsuite_response : Option NetSuiteResponse
deriving DecidableEq, Repr

/-- `domain/models.rs`: `JournalLine` row (`class` is a Lean keyword, renamed
`class_`). -/
structure JournalLineRow where
  id : Nat
  batch_id : Nat
  report_id : Nat
  line_number : Nat
  gl_account : String
  amount_cents : Int
  department : Option String
  class_ : Option String
  memo : Option String
  tax_code : Option String
deriving DecidableEq, Repr

/-- The relational store: the tables the embedded services read and write. -/
structure Db where
  reports : List ReportRow
  items : List ExpenseItem
  caps : List PolicyCap
  approvals : List ApprovalRow
  batches : List BatchRow
  journal_lines : List JournalLineRow
deriving DecidableEq, Repr

/-- `infrastructure/auth.rs`: `AuthenticatedUser`. -/
structure AuthenticatedUser where
  employee_id : Nat
  role : Role
deriving DecidableEq, Repr

/-- `services/errors.rs`: `ServiceError` taxonomy. -/
inductive ServiceError where
  | NotFound
  | Forbidden
  | Validation (message : String)
  | Conflict
  | Internal (message : String)
deriving DecidableEq, Repr

/-- `services/approvals.rs`: `DecisionRequest` payload. -/
structure DecisionRequest where
  status : ApprovalStatus
  comments : Option String
  policy_exception_notes : Option String
deriving DecidableEq, Repr

/-- `services/finance.rs`: `FinalizeRequest` payload. -/
structure FinalizeRequest where
  report_ids : List Nat
  batch_reference : String
deriving DecidableEq, Repr

/-- Committed state after a service call: an `Except.error` outcome means the
enclosing transaction was dropped or rolled back, so the pre-state stands. -/
def postDb (db : Db) (r : Except ServiceError (Db × α)) : Db :=
  match r with
  | Except.ok (db', _) => db'
  | Except.error _ => db

/-- True exactly when a service call returned `Ok`. -/
def isOkE (r : Except ε α) : Bool :=
  match r with
  | Except.ok _ => true
  | Except.error _ => false

/-- `services/approvals.rs::ensure_role`. -/
def ensure_role (user : AuthenticatedUser) (allowed : List Role) : Except ServiceError Unit :=
  if allowed.any fun r => r == user.role then Except.ok ()
  else Except.error ServiceError.Forbidden

/-- `services/approvals.rs::ApprovalService::transition_report`:
`UPDATE expense_reports SET status=$1, updated_at=$2 WHERE id=$3`; zero rows
affected yields `NotFound`. The WHERE clause matches on id only — there is no
current-status precondition. -/
def transition_report (report_id : Nat) (status : ReportStatus) (now : Nat) (db : Db) :
    Except ServiceError Db :=
  if db.reports.any fun r => r.id == report_id then
    Except.ok { db with
      reports := db.reports.map fun r =>
        if r.id == report_id then { r with status := status, updated_at := now } else r }
  else Except.error ServiceError.NotFound

/-- The approval row inserted by `record_decision`
(`INSERT INTO approvals ... RETURNING *`). -/
def recordedApproval (actor : AuthenticatedUser) (report_id : Nat) (payload : DecisionRequest)
    (approval_id : Nat) (now : Nat) : ApprovalRow :=
  { id := approval_id
    report_id := report_id
    approver_id := actor.employee_id
    role := actor.role
    status := payload.status
    comments := payload.comments
    policy_exception_notes := payload.policy_exception_notes
    created_at := now }

/-- `services/approvals.rs::ApprovalService::record_decision`: role gate, insert
one approval row, then conditionally transition the report inside the same
transaction. `approval_id` models `Uuid::new_v4()` and `now` models
`Utc::now()`. -/
def record_decision (actor : AuthenticatedUser) (report_id : Nat) (payload : DecisionRequest)
    (approval_id : Nat) (now : Nat) (db : Db) :
    Except ServiceError (Db × ApprovalRow) := do
  let _ ← ensure_role actor [Role.Manager, Role.Finance]
  let approval : ApprovalRow := recordedApproval actor report_id payload approval_id now
  let tx : Db := { db with approvals := db.approvals ++ [approval] }
  let tx ←
    if actor.role == Role.Manager && payload.status == ApprovalStatus.Approved then
      transition_report report_id ReportStatus.ManagerApproved now tx
    else Except.ok tx
  let tx ←
    if actor.role == Role.Finance && payload.status == ApprovalStatus.Approved then
      transition_report report_id ReportStatus.FinanceFinalized now tx
    else Except.ok tx
  Except.ok (tx, approval)

/-- Row predicate of `submit_report`'s conditional UPDATE:
`WHERE id=$3 AND employee_id=$4 AND status='draft'`. -/
def submitMatch (actor : AuthenticatedUser) (report_id : Nat) (r : ReportRow) : Bool :=
  r.id == report_id && r.employee_id == actor.employee_id && r.status == ReportStatus.Draft

/-- `services/expenses.rs::ExpenseService::submit_report`: one conditional
UPDATE (`SET status='submitted', version=version+1, updated_at=now WHERE id AND
employee_id AND status='draft' RETURNING *`); when it affects no row, a
follow-up existence check on id+owner distinguishes `NotFound` from `Conflict`. -/
def submit_report (actor : AuthenticatedUser) (report_id : Nat) (now : Nat) (db : Db) :
    Except ServiceError (Db × ReportRow) :=
  match db.reports.find? (submitMatch actor report_id) with
  | some r =>
    Except.ok
      ({ db with
          reports := db.reports.map fun q =>
            if submitMatch actor report_id q then
              { q with status := ReportStatus.Submitted, version := q.version + 1, updated_at := now }
            else q },
        { r with status := ReportStatus.Submitted, version := r.version + 1, updated_at := now })
  | none =>
    if db.reports.any fun r => r.id == report_id && r.employee_id == actor.employee_id then
      Except.error ServiceError.Conflict
    else Except.error ServiceError.NotFound

/-- `services/expenses.rs::ExpenseService::evaluate_report`: resolve the owner
(`NotFound` if absent), authorize owner or reviewer roles (`Forbidden`
otherwise), load the report's items (vacuously valid when none), load caps for
the categories present, and aggregate. Read-only: every query is a SELECT. -/
def evaluate_report (actor : AuthenticatedUser) (report_id : Nat) (db : Db) :
    Except ServiceError (Db × PolicyEvaluation) :=
  match db.reports.find? (fun r => r.id == report_id) with
  | none => Except.error ServiceError.NotFound
  | some report =>
    let owner_id := report.employee_id
    let is_reviewer := actor.role == Role.Manager || actor.role == Role.Finance
      || actor.role == Role.Admin
    if actor.employee_id != owner_id && !is_reviewer then
      Except.error ServiceError.Forbidden
    else
      let items := db.items.filter fun i => i.report_id == report_id
      if items.isEmpty then Except.ok (db, PolicyEvaluation.ok)
      else
        let caps := db.caps.filter fun c => items.any fun i => i.category == c.category
        Except.ok (db, aggregate_policy_evaluation items caps)

/-- Compound internal error message built by `finalize_reports` when rollback
after an export failure itself fails. -/
def rollbackErrorMessage (rollback_err original : String) : String :=
  "failed to rollback after NetSuite export error: " ++ rollback_err
    ++ " (original: " ++ original ++ ")"

/-- Per-report body of `finalize_reports`' loop: unconditional
`UPDATE expense_reports SET status='finance_finalized' WHERE id=$2` (affected
row count ignored, no precondition) followed by inserting one journal line with
1-based `line_number`, GL account `"EXPENSES"` and stub amount `0`. -/
def finalizeStep (batch_id : Nat) (lineId : Nat → Nat) (acc : Db) (p : Nat × Nat) : Db :=
  let idx := p.fst
  let report_id := p.snd
  let acc := { acc with
    reports := acc.reports.map (fun (r : ReportRow) =>
      if r.id == report_id then { r with status := ReportStatus.FinanceFinalized } else r) }
  let line : JournalLineRow :=
    { id := lineId idx
      batch_id := batch_id
      report_id := report_id
      line_number := idx + 1
      gl_account := "EXPENSES"
      amount_cents := 0
      department := none
      class_ := none
      memo := none
      tax_code := none }
  { acc with journal_lines := acc.journal_lines ++ [line] }

/-- `services/finance.rs::FinanceService::finalize_reports`: Finance-only;
inside one transaction insert a pending batch, per report (in array order)
update its status and insert a journal line, then call the export adapter.
A transport error (`adapter = .error`) triggers rollback — if the rollback
itself fails (`rollback_err = some _`) the surfaced internal error names both
failures, otherwise the original adapter error. An adapter response
(`adapter = .ok response`) — whether `response.succeeded` or not — is recorded
on the batch (`exported`/`failed`, export timestamp, serialized response) and
the transaction commits. `batch_id` and `lineId` model `Uuid::new_v4()`,
`now` models `Utc::now()`. -/
def finalize_reports (actor : AuthenticatedUser) (payload : FinalizeRequest)
    (batch_id : Nat) (lineId : Nat → Nat) (now : Nat)
    (adapter : Except String NetSuiteResponse) (rollback_err : Option String)
    (db : Db) : Except ServiceError (Db × BatchRow) :=
  if actor.role != Role.Finance then Except.error ServiceError.Forbidden
  else
    let batch : BatchRow :=
      { id := batch_id
        batch_reference := payload.batch_reference
        finalized_by := actor.employee_id
        finalized_at := now
        status := "pending"
        exported_at := none
        netsuite_response := none }
    let tx0 : Db := { db with batches := db.batches ++ [batch] }
    let tx1 : Db := payload.report_ids.enum.foldl (finalizeStep batch_id lineId) tx0
    match adapter with
    | Except.error err =>
      match rollback_err with
      | some rerr => Except.error (ServiceError.Internal (rollbackErrorMessage rerr err))
      | none => Except.error (ServiceError.Internal err)
    | Except.ok response =>
      let export_status := if response.succeeded then "exported" else "failed"
      let batch' := { batch with
        status := export_status
        exported_at := some now
        netsuite_response := some response }
      let tx2 : Db := { tx1 with
        batches := tx1.batches.map (fun (b : BatchRow) =>
          if b.id == batch_id then
            { b with
              status := export_status
              exported_at := some now
              netsuite_response := some response }
          else b) }
      Except.ok (tx2, batch')

/-! ## Helper lemmas -/

/-- The per-item policy engine never emits warnings: every constructor in
`policy.rs` leaves `warnings` empty. -/
theorem evaluate_item_warnings (item : ExpenseItem) (caps : List PolicyCap) :
    (evaluate_item item caps).warnings = [] := by
  unfold evaluate_item check_meal check_mileage
  cases item.category <;> dsimp only <;>
    repeat first
    | rfl
    | split
    | simp [PolicyEvaluation.ok, PolicyEvaluation.with_violation]

/-- Characterization of the aggregation fold in `aggregate_policy_evaluation`:
validity is the conjunction of per-item validity, violations and warnings
accumulate in item order. -/
theorem aggregate_foldl (caps : List PolicyCap) (items : List ExpenseItem)
    (acc : PolicyEvaluation) :
    (items.foldl
      (fun evaluation item =>
        let ev := evaluation.merge (evaluate_item item caps)
        if item.is_policy_exception then
          { ev with warnings := ev.warnings ++ [exceptionWarning item] }
        else ev)
      acc) =
    { is_valid := acc.is_valid && items.all (fun i => (evaluate_item i caps).is_valid)
      violations := acc.violations ++ items.bind (fun i => (evaluate_item i caps).violations)
      warnings := acc.warnings ++ items.bind (fun i =>
        (evaluate_item i caps).warnings
          ++ (if i.is_policy_exception then [exceptionWarning i] else [])) } := by
  induction items generalizing acc with
  | nil => simp
  | cons i rest ih =>
    simp only [List.foldl_cons, List.all_cons, List.cons_bind]
    rw [ih]
    by_cases h : i.is_policy_exception <;>
      simp [h, PolicyEvaluation.merge, Bool.and_assoc, List.append_assoc]

/-- Binding a conditional singleton over a list is mapping over the filter. -/
theorem bind_if_singleton {α β : Type} (l : List α) (p : α → Bool) (f : α → β) :
    (l.bind fun a => if p a then [f a] else []) = (l.filter p).map f := by
  induction l with
  | nil => rfl
  | cons a l ih => by_cases h : p a <;> simp [h, ih, List.filter_cons]

/-! ## Claims about the policy engine (C5–C8) -/

/-- C5: for every Meal item, `evaluate_item` reports a violation iff the item's
amount exceeds some Meal cap active on the item's date; a cap is active exactly
when `date ≥ active_from` and (`active_to` is null or `date ≤ active_to`); with
no active Meal cap the item is valid; and every exceeded active Meal cap
contributes its own violation (one per cap). -/
theorem C5_meal_policy (item : ExpenseItem) (caps : List PolicyCap)
    (hMeal : item.category = ExpenseCategory.Meal) :
    ((evaluate_item item caps).is_valid = false ↔
       ∃ cap ∈ caps, cap.category = ExpenseCategory.Meal ∧
         cap_active cap item.expense_date = true ∧ item.amount_cents > cap.amount_cents)
  ∧ (∀ (cap : PolicyCap) (d : Date), cap_active cap d = true ↔
       (cap.active_from ≤ d ∧ (cap.active_to = none ∨ ∃ t, cap.active_to = some t ∧ d ≤ t)))
  ∧ ((∀ cap ∈ caps, cap.category = ExpenseCategory.Meal →
        cap_active cap item.expense_date = false) →
      evaluate_item item caps = PolicyEvaluation.ok)
  ∧ (evaluate_item item caps).violations.length =
      (caps.filter fun cap => cap.category == ExpenseCategory.Meal
        && cap_active cap item.expense_date
        && decide (item.amount_cents > cap.amount_cents)).length := by
  have he : evaluate_item item caps = check_meal item caps := by
    unfold evaluate_item; rw [hMeal]
  have hmemL : ∀ cap : PolicyCap,
      cap ∈ (caps.filter fun c => c.category == ExpenseCategory.Meal
        && cap_active c item.expense_date
        && decide (item.amount_cents > c.amount_cents)) ↔
      (cap ∈ caps ∧ cap.category = ExpenseCategory.Meal ∧
        cap_active cap item.expense_date = true ∧ item.amount_cents > cap.amount_cents) := by
    intro cap
    rw [List.mem_filter]
    simp [Bool.and_eq_true, and_assoc]
  refine ⟨?_, ?_, ?_, ?_⟩
  · rw [he]
    unfold check_meal
    dsimp only
    split
    · next hEmpty =>
      simp only [List.isEmpty_eq_true, List.map_eq_nil] at hEmpty
      simp only [PolicyEvaluation.ok, Bool.true_eq_false, false_iff]
      rintro ⟨cap, hmem, hcat, hact, hamt⟩
      have : cap ∈ (List.nil : List PolicyCap) := by
        rw [← hEmpty, hmemL]; exact ⟨hmem, hcat, hact, hamt⟩
      cases this
    · next hNE =>
      simp only [List.isEmpty_eq_true, List.map_eq_nil] at hNE
      simp only [true_iff]
      rcases List.exists_mem_of_ne_nil _ hNE with ⟨cap, hmem⟩
      rcases (hmemL cap).mp hmem with ⟨h1, h2, h3, h4⟩
      exact ⟨cap, h1, h2, h3, h4⟩
  · intro cap d
    unfold cap_active
    cases h : cap.active_to <;> simp [h, decide_eq_true_eq]
  · intro hnone
    rw [he]
    unfold check_meal
    have hfil : (caps.filter fun c => c.category == ExpenseCategory.Meal
        && cap_active c item.expense_date
        && decide (item.amount_cents > c.amount_cents)) = [] := by
      rw [List.filter_eq_nil]
      intro c hc
      intro hpred
      simp only [Bool.and_eq_true, beq_iff_eq, decide_eq_true_eq] at hpred
      have := hnone c hc hpred.1.1
      rw [hpred.1.2] at this
      cases this
    rw [hfil]
    rfl
  · rw [he]
    unfold check_meal
    dsimp only
    split
    · next hEmpty =>
      simp only [List.isEmpty_eq_true, List.map_eq_nil] at hEmpty
      simp [PolicyEvaluation.ok, hEmpty]
    · next =>
      simp [List.length_map]

/-- Concrete Meal item of the worked scenario: dated 2024-05-01, 7,500 cents. -/
def c7item : ExpenseItem :=
  { id := 1, report_id := 1, expense_date := mkDate 2024 5 1
    category := ExpenseCategory.Meal, gl_account_id := none, description := none
    attendees := none, location := none, amount_cents := 7500, reimbursable := true
    payment_method := none, is_policy_exception := false }

/-- Concrete Meal cap of the worked scenario: 5,000 cents from 2024-01-01, open-ended. -/
def c7cap : PolicyCap :=
  { id := 2, policy_key := "meal_per_diem", category := ExpenseCategory.Meal
    limit_type := "per_diem", amount_cents := 5000, notes := none
    active_from := mkDate 2024 1 1, active_to := none }

/-- Witness for C5 at the concrete scenario item and cap. -/
theorem C5_meal_policy_witness :
    c7item.category = ExpenseCategory.Meal ∧
    ((evaluate_item c7item [c7cap]).is_valid = false ↔
       ∃ cap ∈ [c7cap], cap.category = ExpenseCategory.Meal ∧
         cap_active cap c7item.expense_date = true ∧
         c7item.amount_cents > cap.amount_cents) :=
  ⟨rfl, (C5_meal_policy c7item [c7cap] rfl).1⟩

/-- C6: for every Mileage item, only the first Mileage cap active on the item's
date is consulted — valid when there is none, a violation exactly when the
item's amount exceeds that cap — and every category other than Meal and
Mileage always evaluates valid with no violations. -/
theorem C6_mileage_and_default_policy (item : ExpenseItem) (caps : List PolicyCap) :
    (item.category = ExpenseCategory.Mileage →
       ((caps.find? (fun c => c.category == ExpenseCategory.Mileage
           && cap_active c item.expense_date) = none →
          evaluate_item item caps = PolicyEvaluation.ok)
        ∧ ∀ cap : PolicyCap,
            caps.find? (fun c => c.category == ExpenseCategory.Mileage
              && cap_active c item.expense_date) = some cap →
            ((evaluate_item item caps).is_valid = false ↔
               item.amount_cents > cap.amount_cents)
            ∧ ((evaluate_item item caps).is_valid = false →
               (evaluate_item item caps).violations =
                 ["Mileage exceeds configured reimbursement rate"])))
  ∧ (item.category ≠ ExpenseCategory.Meal → item.category ≠ ExpenseCategory.Mileage →
       evaluate_item item caps = PolicyEvaluation.ok) := by
  constructor
  · intro hMil
    have he : evaluate_item item caps = check_mileage item caps := by
      unfold evaluate_item; rw [hMil]
    constructor
    · intro hfind
      rw [he]; unfold check_mileage; rw [hfind]
    · intro cap hfind
      rw [he]; unfold check_mileage; rw [hfind]
      by_cases hle : item.amount_cents ≤ cap.amount_cents <;>
        simp [hle, PolicyEvaluation.ok, PolicyEvaluation.with_violation] <;> omega
  · intro hM hm
    unfold evaluate_item
    cases hc : item.category
    all_goals first
      | rfl
      | (exact absurd hc hM)
      | (exact absurd hc hm)

/-- Concrete Mileage item used in the C6 witness. -/
def c6item : ExpenseItem :=
  { c7item with id := 3, category := ExpenseCategory.Mileage, amount_cents := 9000 }

/-- Concrete Lodging item used in the C6 witness. -/
def c6other : ExpenseItem :=
  { c7item with id := 4, category := ExpenseCategory.Lodging, amount_cents := 9000 }

/-- Concrete Mileage cap used in the C6 witness: 6,700 cents, active all 2024. -/
def c6cap : PolicyCap :=
  { id := 5, policy_key := "mileage_rate", category := ExpenseCategory.Mileage
    limit_type := "rate", amount_cents := 6700, notes := none
    active_from := mkDate 2024 1 1, active_to := some (mkDate 2024 12 31) }

/-- Witness for C6: a Mileage item against its first active cap, and a Lodging
item that is always valid. -/
theorem C6_mileage_and_default_policy_witness :
    ((evaluate_item c6item [c6cap]).is_valid = false ↔
       c6item.amount_cents > c6cap.amount_cents)
  ∧ evaluate_item c6other [c6cap] = PolicyEvaluation.ok :=
  ⟨(((C6_mileage_and_default_policy c6item [c6cap]).1 rfl).2 c6cap (by decide)).1,
   (C6_mileage_and_default_policy c6other [c6cap]).2 (by decide) (by decide)⟩

/-- Concrete report of the worked scenario: period 2024-05-01..2024-05-31,
owned by employee 5. -/
def c7report : ReportRow :=
  { id := 1, employee_id := 5, reporting_period_start := mkDate 2024 5 1
    reporting_period_end := mkDate 2024 5 31, status := ReportStatus.Draft
    total_amount_cents := 7500, total_reimbursable_cents := 7500, currency := "USD"
    version := 1, created_at := 0, updated_at := 0 }

/-- Database of the worked scenario: the report, its single Meal item, and the
single active Meal cap. -/
def c7db : Db :=
  { reports := [c7report], items := [c7item], caps := [c7cap], approvals := []
    batches := [], journal_lines := [] }

/-- C7: evaluating the scenario report (period 2024-05-01..2024-05-31, one Meal
item dated 2024-05-01 for 7,500 cents, active Meal cap of 5,000 cents from
2024-01-01) yields `is_valid = false` with exactly one violation whose message
mentions `$50.00` — the 5,000-cent cap rendered as dollars with two decimals. -/
theorem C7_scenario_meal_violation :
    evaluate_report { employee_id := 5, role := Role.Employee } 1 c7db =
      Except.ok (c7db,
        { is_valid := false
          violations := ["Meal exceeds per-diem limit of " ++ "$50.00"]
          warnings := [] }) := rfl

/-- C8: in the aggregated report evaluation, each item flagged
`is_policy_exception` contributes one warning naming that item (in item order),
and those warnings never affect validity: the aggregate `is_valid` is false
exactly when some item's own policy evaluation reports a violation. -/
theorem C8_exception_warnings_nonblocking (items : List ExpenseItem) (caps : List PolicyCap) :
    ((aggregate_policy_evaluation items caps).is_valid = false ↔
       ∃ i ∈ items, (evaluate_item i caps).is_valid = false)
  ∧ (aggregate_policy_evaluation items caps).warnings =
      (items.filter fun i => i.is_policy_exception).map exceptionWarning := by
  unfold aggregate_policy_evaluation
  rw [aggregate_foldl]
  constructor
  · simp only [PolicyEvaluation.ok, Bool.true_and]
    constructor
    · intro h
      by_contra hno
      push_neg at hno
      have : items.all (fun i => (evaluate_item i caps).is_valid) = true := by
        rw [List.all_eq_true]
        intro i hi
        cases hv : (evaluate_item i caps).is_valid
        · exact absurd hv (hno i hi)
        · rfl
      rw [this] at h
      cases h
    · rintro ⟨i, hi, hv⟩
      cases hall : items.all (fun i => (evaluate_item i caps).is_valid)
      · rfl
      · rw [List.all_eq_true] at hall
        rw [hall i hi] at hv
        cases hv
  · simp only [PolicyEvaluation.ok, evaluate_item_warnings, List.nil_append]
    exact bind_if_singleton items _ exceptionWarning

/-! ## Claims about the orchestrator and submission (C9, C4) -/

/-- `evaluate_report` issues only SELECTs: whenever it succeeds, the database
it returns is the one it was given. -/
theorem evaluate_report_readonly (actor : AuthenticatedUser) (report_id : Nat) (db : Db)
    (db' : Db) (ev : PolicyEvaluation)
    (h : evaluate_report actor report_id db = Except.ok (db', ev)) : db' = db := by
  unfold evaluate_report at h
  cases hf : db.reports.find? (fun r => r.id == report_id) with
  | none => rw [hf] at h; cases h
  | some report =>
    rw [hf] at h
    dsimp only at h
    split at h
    · cases h
    · split at h
      · cases h; rfl
      · cases h; rfl

/-- C9: `evaluate_report` has no side effects — the committed state after a
call is the pre-call state — and it is idempotent: a second call on the
resulting state returns exactly the same outcome (same validity, violations
and warnings). -/
theorem C9_evaluate_report_idempotent (actor : AuthenticatedUser) (report_id : Nat) (db : Db) :
    postDb db (evaluate_report actor report_id db) = db ∧
    evaluate_report actor report_id (postDb db (evaluate_report actor report_id db))
      = evaluate_report actor report_id db := by
  have h : postDb db (evaluate_report actor report_id db) = db := by
    unfold postDb
    cases hr : evaluate_report actor report_id db with
    | ok p =>
      cases p with
      | mk db' ev => exact evaluate_report_readonly actor report_id db db' ev hr
    | error e => rfl
  exact ⟨h, by rw [h]⟩

/-- C4: `submit_report` succeeds exactly when a report with the given id is
owned by the actor and still in `Draft`; when the conditional update matches
no row, the error is `NotFound` exactly when no report with that id and owner
exists, and `Conflict` exactly when such a report exists but the `Draft`
precondition fails. -/
theorem C4_submit_report_guard (actor : AuthenticatedUser) (report_id now : Nat) (db : Db) :
    (isOkE (submit_report actor report_id now db) = true ↔
       ∃ r ∈ db.reports, r.id = report_id ∧ r.employee_id = actor.employee_id ∧
         r.status = ReportStatus.Draft)
  ∧ (submit_report actor report_id now db = Except.error ServiceError.NotFound ↔
       ¬ ∃ r ∈ db.reports, r.id = report_id ∧ r.employee_id = actor.employee_id)
  ∧ (submit_report actor report_id now db = Except.error ServiceError.Conflict ↔
       ((∃ r ∈ db.reports, r.id = report_id ∧ r.employee_id = actor.employee_id) ∧
        ¬ ∃ r ∈ db.reports, r.id = report_id ∧ r.employee_id = actor.employee_id ∧
          r.status = ReportStatus.Draft)) := by
  have hmatch : ∀ r : ReportRow, submitMatch actor report_id r = true ↔
      (r.id = report_id ∧ r.employee_id = actor.employee_id ∧
        r.status = ReportStatus.Draft) := by
    intro r
    unfold submitMatch
    simp [Bool.and_eq_true, and_assoc]
  have hexDraft : (∃ r ∈ db.reports, r.id = report_id ∧ r.employee_id = actor.employee_id ∧
      r.status = ReportStatus.Draft) ↔
      ∃ r ∈ db.reports, submitMatch actor report_id r = true := by
    constructor
    · rintro ⟨r, hr, h1, h2, h3⟩; exact ⟨r, hr, (hmatch r).mpr ⟨h1, h2, h3⟩⟩
    · rintro ⟨r, hr, h⟩; rcases (hmatch r).mp h with ⟨h1, h2, h3⟩; exact ⟨r, hr, h1, h2, h3⟩
  have hexOwn : (∃ r ∈ db.reports, r.id = report_id ∧ r.employee_id = actor.employee_id) ↔
      (db.reports.any fun r => r.id == report_id
        && r.employee_id == actor.employee_id) = true := by
    rw [List.any_eq_true]
    constructor
    · rintro ⟨r, hr, h1, h2⟩; exact ⟨r, hr, by simp [h1, h2]⟩
    · rintro ⟨r, hr, h⟩
      simp only [Bool.and_eq_true, beq_iff_eq] at h
      exact ⟨r, hr, h.1, h.2⟩
  unfold submit_report
  cases hf : db.reports.find? (submitMatch actor report_id) with
  | some r =>
    have hr : r ∈ db.reports := List.mem_of_find?_eq_some hf
    have hp : submitMatch actor report_id r = true := List.find?_some hf
    refine ⟨?_, ?_, ?_⟩
    · simp only [isOkE, true_iff]
      exact hexDraft.mpr ⟨r, hr, hp⟩
    · constructor
      · intro h; cases h
      · intro h
        rcases (hmatch r).mp hp with ⟨h1, h2, _⟩
        exact absurd ⟨r, hr, h1, h2⟩ h
    · constructor
      · intro h; cases h
      · rintro ⟨_, hno⟩
        exact absurd (hexDraft.mpr ⟨r, hr, hp⟩) hno
  | none =>
    have hnone : ∀ r ∈ db.reports, ¬ submitMatch actor report_id r = true := by
      intro r hr
      exact List.find?_eq_none.mp hf r hr
    have hnoDraft : ¬ ∃ r ∈ db.reports, r.id = report_id ∧
        r.employee_id = actor.employee_id ∧ r.status = ReportStatus.Draft := by
      intro hex
      rcases hexDraft.mp hex with ⟨r, hr, h⟩
      exact hnone r hr h
    cases hown : (db.reports.any fun r => r.id == report_id
        && r.employee_id == actor.employee_id) with
    | true =>
      dsimp only
      rw [if_pos rfl]
      refine ⟨?_, ?_, ?_⟩
      · simp only [isOkE, Bool.false_eq_true, false_iff]
        exact hnoDraft
      · constructor
        · intro h; cases h
        · intro h; exact absurd (hexOwn.mpr hown) h
      · simp only [true_iff, iff_true]
        exact ⟨hexOwn.mpr hown, hnoDraft⟩
    | false =>
      dsimp only
      rw [if_neg Bool.false_ne_true]
      refine ⟨?_, ?_, ?_⟩
      · simp only [isOkE, Bool.false_eq_true, false_iff]
        exact hnoDraft
      · simp only [true_iff, iff_true]
        intro hex
        rw [hexOwn, hown] at hex
        cases hex
      · constructor
        · intro h; cases h
        · rintro ⟨hex, _⟩
          rw [hexOwn, hown] at hex
          cases hex

/-! ## Claims about the approval workflow (C3, C2) -/

/-- Pure-bind reduction for `Except`. -/
theorem except_pure_bind {α β ε : Type} (a : α) (f : α → Except ε β) :
    (Except.ok a >>= f : Except ε β) = f a := rfl

/-- Error-bind reduction for `Except`. -/
theorem except_error_bind {α β ε : Type} (e : ε) (f : α → Except ε β) :
    (Except.error e >>= f : Except ε β) = Except.error e := rfl

/-- `record_decision` for an allowed actor whose decision is not `Approved`:
only the approval row is inserted; no report is touched. -/
theorem record_decision_not_approved (actor : AuthenticatedUser) (report_id : Nat)
    (payload : DecisionRequest) (approval_id now : Nat) (db : Db)
    (hallow : ([Role.Manager, Role.Finance].any fun r => r == actor.role) = true)
    (hst : payload.status ≠ ApprovalStatus.Approved) :
    record_decision actor report_id payload approval_id now db =
      Except.ok
        ({ db with approvals := db.approvals
            ++ [recordedApproval actor report_id payload approval_id now] },
         recordedApproval actor report_id payload approval_id now) := by
  have hb : (payload.status == ApprovalStatus.Approved) = false := by
    cases h : payload.status == ApprovalStatus.Approved
    · rfl
    · exact absurd (by simpa using h) hst
  unfold record_decision ensure_role
  rw [hallow]
  dsimp only
  rw [hb]
  simp only [Bool.and_false, Bool.false_eq_true, if_false]
  rfl

/-- `record_decision` for a Manager approving an existing report: the approval
row is inserted and the report status is overwritten to `ManagerApproved`. -/
theorem record_decision_manager_approved (actor : AuthenticatedUser) (report_id : Nat)
    (payload : DecisionRequest) (approval_id now : Nat) (db : Db)
    (hMan : actor.role = Role.Manager) (hst : payload.status = ApprovalStatus.Approved)
    (hany : (db.reports.any fun q => q.id == report_id) = true) :
    record_decision actor report_id payload approval_id now db =
      Except.ok
        ({ db with
            approvals := db.approvals
              ++ [recordedApproval actor report_id payload approval_id now]
            reports := db.reports.map (fun (q : ReportRow) =>
              if q.id == report_id then
                { q with status := ReportStatus.ManagerApproved, updated_at := now }
              else q) },
         recordedApproval actor report_id payload approval_id now) := by
  have hex : ∃ x ∈ db.reports, x.id = report_id := by simpa using hany
  unfold record_decision ensure_role transition_report
  rw [hMan, hst]
  simp +decide [hex, except_pure_bind]

/-- `record_decision` for a Finance actor approving an existing report: the
approval row is inserted and the report status is overwritten to
`FinanceFinalized`. -/
theorem record_decision_finance_approved (actor : AuthenticatedUser) (report_id : Nat)
    (payload : DecisionRequest) (approval_id now : Nat) (db : Db)
    (hFin : actor.role = Role.Finance) (hst : payload.status = ApprovalStatus.Approved)
    (hany : (db.reports.any fun q => q.id == report_id) = true) :
    record_decision actor report_id payload approval_id now db =
      Except.ok
        ({ db with
            approvals := db.approvals
              ++ [recordedApproval actor report_id payload approval_id now]
            reports := db.reports.map (fun (q : ReportRow) =>
              if q.id == report_id then
                { q with status := ReportStatus.FinanceFinalized, updated_at := now }
              else q) },
         recordedApproval actor report_id payload approval_id now) := by
  have hex : ∃ x ∈ db.reports, x.id = report_id := by simpa using hany
  unfold record_decision ensure_role transition_report
  rw [hFin, hst]
  simp +decide [hex, except_pure_bind]

/-- C3: `record_decision` by an actor who is neither Manager nor Finance fails
with `Forbidden` and commits nothing (the approval table is untouched). For a
Manager or Finance actor on an existing report the call succeeds, appends
exactly one approval row capturing actor, role and decision, and changes the
report status exactly for (Manager, Approved) — to `ManagerApproved` — and
(Finance, Approved) — to `FinanceFinalized`; `Denied` and `NeedsChanges`
decisions are recorded but leave every report unchanged. -/
theorem C3_record_decision_effects (actor : AuthenticatedUser) (report_id : Nat)
    (payload : DecisionRequest) (approval_id now : Nat) (db : Db) :
    (actor.role ≠ Role.Manager → actor.role ≠ Role.Finance →
       record_decision actor report_id payload approval_id now db
         = Except.error ServiceError.Forbidden ∧
       (postDb db (record_decision actor report_id payload approval_id now db)).approvals
         = db.approvals)
  ∧ ((actor.role = Role.Manager ∨ actor.role = Role.Finance) →
      (∃ r ∈ db.reports, r.id = report_id) →
      ∃ db' a, record_decision actor report_id payload approval_id now db
          = Except.ok (db', a) ∧
        db'.approvals = db.approvals ++ [a] ∧
        a.report_id = report_id ∧ a.approver_id = actor.employee_id ∧
        a.role = actor.role ∧ a.status = payload.status ∧
        (payload.status ≠ ApprovalStatus.Approved → db'.reports = db.reports) ∧
        (actor.role = Role.Manager → payload.status = ApprovalStatus.Approved →
          db'.reports = db.reports.map (fun (r : ReportRow) =>
            if r.id == report_id then
              { r with status := ReportStatus.ManagerApproved, updated_at := now }
            else r)) ∧
        (actor.role = Role.Finance → payload.status = ApprovalStatus.Approved →
          db'.reports = db.reports.map (fun (r : ReportRow) =>
            if r.id == report_id then
              { r with status := ReportStatus.FinanceFinalized, updated_at := now }
            else r))) := by
  constructor
  · intro hM hF
    have hrole : record_decision actor report_id payload approval_id now db
        = Except.error ServiceError.Forbidden := by
      unfold record_decision ensure_role
      have hfalse : ([Role.Manager, Role.Finance].any fun r => r == actor.role) = false := by
        cases hr : actor.role
        · rfl
        · exact absurd hr hM
        · exact absurd hr hF
        · rfl
      rw [hfalse]
      rfl
    exact ⟨hrole, by rw [hrole]; rfl⟩
  · rintro hrole ⟨r, hr, hid⟩
    have hany : (db.reports.any fun q => q.id == report_id) = true := by
      rw [List.any_eq_true]
      exact ⟨r, hr, by simp [hid]⟩
    rcases hrole with hMan | hFin
    · cases hst : payload.status with
      | Approved =>
        refine ⟨_, _,
          record_decision_manager_approved actor report_id payload approval_id now db
            hMan hst hany, rfl, rfl, rfl, rfl, hst, ?_, ?_, ?_⟩
        · intro h; exact absurd rfl h
        · intro _ _; rfl
        · intro hF _; rw [hMan] at hF; cases hF
      | Denied =>
        refine ⟨_, _,
          record_decision_not_approved actor report_id payload approval_id now db
            (by rw [hMan]; rfl) (by rw [hst]; decide), rfl, rfl, rfl, rfl, hst, ?_, ?_, ?_⟩
        · intro _; rfl
        · intro _ hA; cases hA
        · intro _ hA; cases hA
      | NeedsChanges =>
        refine ⟨_, _,
          record_decision_not_approved actor report_id payload approval_id now db
            (by rw [hMan]; rfl) (by rw [hst]; decide), rfl, rfl, rfl, rfl, hst, ?_, ?_, ?_⟩
        · intro _; rfl
        · intro _ hA; cases hA
        · intro _ hA; cases hA
    · cases hst : payload.status with
      | Approved =>
        refine ⟨_, _,
          record_decision_finance_approved actor report_id payload approval_id now db
            hFin hst hany, rfl, rfl, rfl, rfl, hst, ?_, ?_, ?_⟩
        · intro h; exact absurd rfl h
        · intro hM _; rw [hFin] at hM; cases hM
        · intro _ _; rfl
      | Denied =>
        refine ⟨_, _,
          record_decision_not_approved actor report_id payload approval_id now db
            (by rw [hFin]; rfl) (by rw [hst]; decide), rfl, rfl, rfl, rfl, hst, ?_, ?_, ?_⟩
        · intro _; rfl
        · intro _ hA; cases hA
        · intro _ hA; cases hA
      | NeedsChanges =>
        refine ⟨_, _,
          record_decision_not_approved actor report_id payload approval_id now db
            (by rw [hFin]; rfl) (by rw [hst]; decide), rfl, rfl, rfl, rfl, hst, ?_, ?_, ?_⟩
        · intro _; rfl
        · intro _ hA; cases hA
        · intro _ hA; cases hA

/-- Concrete employee actor (role `Employee`), used in witnesses. -/
def c3employee : AuthenticatedUser := { employee_id := 7, role := Role.Employee }

/-- Concrete manager actor, used in witnesses. -/
def c3manager : AuthenticatedUser := { employee_id := 8, role := Role.Manager }

/-- Concrete `Approved` decision payload. -/
def c3payload : DecisionRequest :=
  { status := ApprovalStatus.Approved, comments := none, policy_exception_notes := none }

/-- Concrete database holding only the scenario report, used in witnesses. -/
def c3db : Db :=
  { reports := [c7report], items := [], caps := [], approvals := []
    batches := [], journal_lines := [] }

/-- Witness for C3: an Employee actor is rejected with `Forbidden` and commits
nothing; a Manager approving report 1 succeeds with the described effects. -/
theorem C3_record_decision_effects_witness :
    (record_decision c3employee 1 c3payload 11 100 c3db
        = Except.error ServiceError.Forbidden ∧
      (postDb c3db (record_decision c3employee 1 c3payload 11 100 c3db)).approvals
        = c3db.approvals)
  ∧ ∃ db' a, record_decision c3manager 1 c3payload 12 100 c3db = Except.ok (db', a) ∧
      db'.approvals = c3db.approvals ++ [a] ∧
      a.report_id = 1 ∧ a.approver_id = c3manager.employee_id ∧
      a.role = c3manager.role ∧ a.status = c3payload.status ∧
      (c3payload.status ≠ ApprovalStatus.Approved → db'.reports = c3db.reports) ∧
      (c3manager.role = Role.Manager → c3payload.status = ApprovalStatus.Approved →
        db'.reports = c3db.reports.map (fun (r : ReportRow) =>
          if r.id == 1 then
            { r with status := ReportStatus.ManagerApproved, updated_at := 100 }
          else r)) ∧
      (c3manager.role = Role.Finance → c3payload.status = ApprovalStatus.Approved →
        db'.reports = c3db.reports.map (fun (r : ReportRow) =>
          if r.id == 1 then
            { r with status := ReportStatus.FinanceFinalized, updated_at := 100 }
          else r)) :=
  ⟨(C3_record_decision_effects c3employee 1 c3payload 11 100 c3db).1
      (by decide) (by decide),
   (C3_record_decision_effects c3manager 1 c3payload 12 100 c3db).2
      (Or.inl rfl) ⟨c7report, by decide, rfl⟩⟩

/-- `record_decision` for an actor outside Manager/Finance: `Forbidden`. -/
theorem record_decision_forbidden (actor : AuthenticatedUser) (report_id : Nat)
    (payload : DecisionRequest) (approval_id now : Nat) (db : Db)
    (hM : actor.role ≠ Role.Manager) (hF : actor.role ≠ Role.Finance) :
    record_decision actor report_id payload approval_id now db
      = Except.error ServiceError.Forbidden := by
  unfold record_decision ensure_role
  have hfalse : ([Role.Manager, Role.Finance].any fun r => r == actor.role) = false := by
    cases hr : actor.role
    · rfl
    · exact absurd hr hM
    · exact absurd hr hF
    · rfl
  rw [hfalse]
  rfl

/-- `record_decision` for an allowed actor approving a report id that matches
no row: the status transition affects zero rows, so the whole call aborts with
`NotFound`. -/
theorem record_decision_approved_notfound (actor : AuthenticatedUser) (report_id : Nat)
    (payload : DecisionRequest) (approval_id now : Nat) (db : Db)
    (hrole : actor.role = Role.Manager ∨ actor.role = Role.Finance)
    (hst : payload.status = ApprovalStatus.Approved)
    (hnone : (db.reports.any fun q => q.id == report_id) = false) :
    record_decision actor report_id payload approval_id now db
      = Except.error ServiceError.NotFound := by
  have hnex : ¬ ∃ x ∈ db.reports, x.id = report_id := by
    intro hex
    rcases hex with ⟨x, hx, hid⟩
    have htrue : (db.reports.any fun q => q.id == report_id) = true :=
      List.any_eq_true.mpr ⟨x, hx, by simp [hid]⟩
    rw [hnone] at htrue
    cases htrue
  rcases hrole with h | h <;>
  · unfold record_decision ensure_role transition_report
    rw [h, hst]
    simp +decide [hnex, except_pure_bind, except_error_bind]

/-- Concrete report already in terminal status `Denied`. -/
def c2report : ReportRow := { c7report with status := ReportStatus.Denied }

/-- Concrete database with the `Denied` report. -/
def c2db : Db :=
  { reports := [c2report], items := [], caps := [], approvals := []
    batches := [], journal_lines := [] }

/-- Concrete manager actor for the C2 counterexample. -/
def c2mgr : AuthenticatedUser := { employee_id := 9, role := Role.Manager }

/-- C2 counterexample: the report is in status `Denied`, for which the manager-
approval precondition does not hold, yet `record_decision` (Manager, Approved)
succeeds and silently overwrites the status with `ManagerApproved` — the
UPDATE in `transition_report` has no expected-current-status guard in its
WHERE clause. -/
theorem C2_counterexample :
    c2db.reports.map (fun r => r.status) = [ReportStatus.Denied]
  ∧ isOkE (record_decision c2mgr 1 c3payload 10 100 c2db) = true
  ∧ (postDb c2db (record_decision c2mgr 1 c3payload 10 100 c2db)).reports.map
      (fun r => r.status) = [ReportStatus.ManagerApproved] := by decide

/-- C2 (amended): the report-status transitions performed by `record_decision`
are conditional only on the report's existence, not on its current status: for
an allowed actor with an `Approved` decision the call succeeds iff a report
with the given id exists (zero affected rows abort the transaction with
`NotFound`), and on success the report's status is overwritten with the target
status regardless of its previous value. -/
theorem C2_transition_existence_only (actor : AuthenticatedUser) (report_id : Nat)
    (payload : DecisionRequest) (approval_id now : Nat) (db : Db)
    (hrole : actor.role = Role.Manager ∨ actor.role = Role.Finance)
    (happ : payload.status = ApprovalStatus.Approved) :
    (isOkE (record_decision actor report_id payload approval_id now db) = true ↔
       ∃ r ∈ db.reports, r.id = report_id)
  ∧ (∀ db' a, record_decision actor report_id payload approval_id now db
        = Except.ok (db', a) →
       db'.reports = db.reports.map (fun (r : ReportRow) =>
         if r.id == report_id then
           { r with
             status := if actor.role = Role.Manager then ReportStatus.ManagerApproved
               else ReportStatus.FinanceFinalized
             updated_at := now }
         else r))
  ∧ ((¬ ∃ r ∈ db.reports, r.id = report_id) →
       record_decision actor report_id payload approval_id now db
         = Except.error ServiceError.NotFound) := by
  by_cases hex : ∃ r ∈ db.reports, r.id = report_id
  · have hany : (db.reports.any fun q => q.id == report_id) = true := by
      rcases hex with ⟨r, hr, hid⟩
      exact List.any_eq_true.mpr ⟨r, hr, by simp [hid]⟩
    rcases hrole with hMan | hFin
    · rw [record_decision_manager_approved actor report_id payload approval_id now db
        hMan happ hany]
      refine ⟨⟨fun _ => hex, fun _ => rfl⟩, ?_, fun hno => absurd hex hno⟩
      intro db' a h
      cases h
      simp [hMan]
    · rw [record_decision_finance_approved actor report_id payload approval_id now db
        hFin happ hany]
      refine ⟨⟨fun _ => hex, fun _ => rfl⟩, ?_, fun hno => absurd hex hno⟩
      intro db' a h
      cases h
      have hnm : ¬ actor.role = Role.Manager := by
        rw [hFin]; intro hc; cases hc
      simp [hnm]
  · have hnone : (db.reports.any fun q => q.id == report_id) = false := by
      cases h : db.reports.any fun q => q.id == report_id
      · rfl
      · exact absurd (by simpa using h) hex
    rw [record_decision_approved_notfound actor report_id payload approval_id now db
      hrole happ hnone]
    refine ⟨⟨fun h => by simp [isOkE] at h, fun h => absurd h hex⟩, ?_, fun _ => rfl⟩
    intro db' a h
    cases h

/-- Witness for the amended C2 at the `Denied`-report database: the call
succeeds exactly because report 1 exists. -/
theorem C2_transition_existence_only_witness :
    isOkE (record_decision c2mgr 1 c3payload 10 100 c2db) = true ↔
      ∃ r ∈ c2db.reports, r.id = 1 :=
  (C2_transition_existence_only c2mgr 1 c3payload 10 100 c2db (Or.inl rfl) rfl).1

/-! ## Claims about the finalization pipeline (C1) and versioning (C10) -/

/-- `finalize_reports` when the export adapter fails with a transport error:
the transaction is rolled back and the surfaced error is the original adapter
error, or — when the rollback itself fails — a compound internal error naming
both the rollback failure and the original cause. -/
theorem finalize_transport_error (actor : AuthenticatedUser) (payload : FinalizeRequest)
    (batch_id : Nat) (lineId : Nat → Nat) (now : Nat) (rollback_err : Option String)
    (db : Db) (e : String) (hrole : actor.role = Role.Finance) :
    finalize_reports actor payload batch_id lineId now (Except.error e) rollback_err db
      = Except.error (match rollback_err with
          | some rerr => ServiceError.Internal (rollbackErrorMessage rerr e)
          | none => ServiceError.Internal e) := by
  unfold finalize_reports
  rw [hrole]
  cases rollback_err <;> rfl

/-- Concrete finance actor for the finalization scenarios. -/
def c1fin : AuthenticatedUser := { employee_id := 9, role := Role.Finance }

/-- Concrete manager-approved report awaiting finalization. -/
def c1report : ReportRow := { c7report with status := ReportStatus.ManagerApproved }

/-- Concrete database for the finalization scenarios. -/
def c1db : Db :=
  { reports := [c1report], items := [], caps := [], approvals := []
    batches := [], journal_lines := [] }

/-- Concrete finalize request for report 1. -/
def c1payload : FinalizeRequest := { report_ids := [1], batch_reference := "B-1" }

/-- Concrete adapter response reporting failure (`succeeded = false`). -/
def c1resp : NetSuiteResponse :=
  { succeeded := false, reference := none, message := some "rejected" }

/-- The finalization call of the C1 counterexample: the adapter returns a
response with `succeeded = false` (no transport error). -/
def c1call : Except ServiceError (Db × BatchRow) :=
  finalize_reports c1fin c1payload 77 (fun i => 100 + i) 500 (Except.ok c1resp) none c1db

/-- C1 counterexample: the export adapter reports failure
(`succeeded = false`), yet `finalize_reports` succeeds and commits everything —
the batch row (with status `failed`), the journal line, and the report-status
update are all present afterwards, contradicting the all-or-nothing claim. -/
theorem C1_counterexample :
    c1resp.succeeded = false
  ∧ isOkE c1call = true
  ∧ (postDb c1db c1call).batches.map (fun b => b.status) = ["failed"]
  ∧ (postDb c1db c1call).journal_lines.length = 1
  ∧ (postDb c1db c1call).reports.map (fun r => r.status) = [ReportStatus.FinanceFinalized]
  ∧ c1db.reports.map (fun r => r.status) = [ReportStatus.ManagerApproved] := by decide

/-- C1 (amended): `finalize_reports` is all-or-nothing only with respect to
adapter *transport* failure: when the export call itself fails, the call
returns an error — the compound internal error naming both the rollback
failure and the original adapter error when rollback also fails, the original
adapter error otherwise — and the committed state is unchanged (no batch row,
journal line, or report-status update persists). An adapter *response* with
`succeeded = false` is instead committed with batch status `failed`
(see the counterexample). -/
theorem C1_finalize_transport_rollback (actor : AuthenticatedUser) (payload : FinalizeRequest)
    (batch_id : Nat) (lineId : Nat → Nat) (now : Nat) (rollback_err : Option String)
    (db : Db) (e : String) (hrole : actor.role = Role.Finance) :
    finalize_reports actor payload batch_id lineId now (Except.error e) rollback_err db
      = Except.error (match rollback_err with
          | some rerr => ServiceError.Internal (rollbackErrorMessage rerr e)
          | none => ServiceError.Internal e)
  ∧ postDb db
      (finalize_reports actor payload batch_id lineId now (Except.error e) rollback_err db)
      = db := by
  have h1 := finalize_transport_error actor payload batch_id lineId now rollback_err db e hrole
  exact ⟨h1, by rw [h1]; rfl⟩

/-- Witness for the amended C1: a transport error with a failing rollback
surfaces the compound internal error naming both messages, and the committed
state is unchanged. -/
theorem C1_finalize_transport_rollback_witness :
    (finalize_reports c1fin c1payload 77 (fun i => 100 + i) 500 (Except.error "connection reset")
        (some "rollback timeout") c1db
      = Except.error (ServiceError.Internal ("failed to rollback after NetSuite export error: "
          ++ "rollback timeout" ++ " (original: " ++ "connection reset" ++ ")")))
  ∧ postDb c1db
      (finalize_reports c1fin c1payload 77 (fun i => 100 + i) 500 (Except.error "connection reset")
        (some "rollback timeout") c1db)
      = c1db :=
  C1_finalize_transport_rollback c1fin c1payload 77 (fun i => 100 + i) 500
    (some "rollback timeout") c1db "connection reset" rfl

/-- Updating status/`updated_at` of matching rows preserves every row's
(id, version) pair. -/
theorem map_idver_update (l : List ReportRow) (report_id : Nat) (status : ReportStatus)
    (now : Nat) :
    ((l.map (fun (q : ReportRow) =>
        if q.id == report_id then { q with status := status, updated_at := now } else q)).map
      (fun r => (r.id, r.version)))
      = l.map (fun r => (r.id, r.version)) := by
  induction l with
  | nil => rfl
  | cons q l ih =>
    simp only [List.map_cons, ih]
    by_cases h : (q.id == report_id) = true
    · rw [if_pos h]
    · rw [if_neg h]

/-- The status-only update of `finalize_reports` preserves every row's
(id, version) pair. -/
theorem map_idver_finalize (l : List ReportRow) (report_id : Nat) :
    ((l.map (fun (q : ReportRow) =>
        if q.id == report_id then { q with status := ReportStatus.FinanceFinalized } else q)).map
      (fun r => (r.id, r.version)))
      = l.map (fun r => (r.id, r.version)) := by
  induction l with
  | nil => rfl
  | cons q l ih =>
    simp only [List.map_cons, ih]
    by_cases h : (q.id == report_id) = true
    · rw [if_pos h]
    · rw [if_neg h]

/-- The finalization loop preserves every report's (id, version) pair. -/
theorem finalize_foldl_idver (batch_id : Nat) (lineId : Nat → Nat) :
    ∀ (l : List (Nat × Nat)) (acc : Db),
      ((l.foldl (finalizeStep batch_id lineId) acc).reports.map (fun r => (r.id, r.version)))
        = acc.reports.map (fun r => (r.id, r.version)) := by
  intro l
  induction l with
  | nil => intro acc; rfl
  | cons p l ih =>
    intro acc
    rw [List.foldl_cons, ih]
    exact map_idver_finalize acc.reports p.snd

/-- `record_decision` never changes any report's version. -/
theorem record_decision_preserves_versions (actor : AuthenticatedUser) (report_id : Nat)
    (payload : DecisionRequest) (approval_id now : Nat) (db : Db) :
    (postDb db (record_decision actor report_id payload approval_id now db)).reports.map
        (fun r => (r.id, r.version))
      = db.reports.map (fun r => (r.id, r.version)) := by
  by_cases hM : actor.role = Role.Manager
  · by_cases hA : payload.status = ApprovalStatus.Approved
    · cases hany : db.reports.any fun q => q.id == report_id
      · rw [record_decision_approved_notfound actor report_id payload approval_id now db
          (Or.inl hM) hA hany]
        rfl
      · rw [record_decision_manager_approved actor report_id payload approval_id now db
          hM hA hany]
        exact map_idver_update db.reports report_id ReportStatus.ManagerApproved now
    · rw [record_decision_not_approved actor report_id payload approval_id now db
        (by rw [hM]; rfl) hA]
      rfl
  · by_cases hF : actor.role = Role.Finance
    · by_cases hA : payload.status = ApprovalStatus.Approved
      · cases hany : db.reports.any fun q => q.id == report_id
        · rw [record_decision_approved_notfound actor report_id payload approval_id now db
            (Or.inr hF) hA hany]
          rfl
        · rw [record_decision_finance_approved actor report_id payload approval_id now db
            hF hA hany]
          exact map_idver_update db.reports report_id ReportStatus.FinanceFinalized now
      · rw [record_decision_not_approved actor report_id payload approval_id now db
          (by rw [hF]; rfl) hA]
        rfl
    · rw [record_decision_forbidden actor report_id payload approval_id now db hM hF]
      rfl

/-- `finalize_reports` never changes any report's version. -/
theorem finalize_preserves_versions (actor : AuthenticatedUser) (payload : FinalizeRequest)
    (batch_id : Nat) (lineId : Nat → Nat) (now : Nat)
    (adapter : Except String NetSuiteResponse) (rollback_err : Option String) (db : Db) :
    (postDb db
        (finalize_reports actor payload batch_id lineId now adapter rollback_err db)).reports.map
        (fun r => (r.id, r.version))
      = db.reports.map (fun r => (r.id, r.version)) := by
  by_cases hrole : actor.role = Role.Finance
  · cases adapter with
    | error e =>
      rw [finalize_transport_error actor payload batch_id lineId now rollback_err db e hrole]
      rfl
    | ok response =>
      unfold finalize_reports postDb
      rw [hrole]
      rw [if_neg (by decide : ¬ ((Role.Finance != Role.Finance) = true))]
      dsimp only
      exact finalize_foldl_idver batch_id lineId payload.report_ids.enum _
  · have hforbidden : finalize_reports actor payload batch_id lineId now adapter rollback_err db
        = Except.error ServiceError.Forbidden := by
      unfold finalize_reports
      have hb : (actor.role != Role.Finance) = true := by
        cases h : actor.role == Role.Finance
        · simp [bne, h]
        · exact absurd (by simpa using h) hrole
      rw [hb]
      rfl
    rw [hforbidden]
    rfl

/-- Concrete submitted report at version 3, used in the C10 counterexample. -/
def c10report : ReportRow := { c7report with status := ReportStatus.Submitted, version := 3 }

/-- Concrete database for the C10 counterexample. -/
def c10db : Db :=
  { reports := [c10report], items := [], caps := [], approvals := []
    batches := [], journal_lines := [] }

/-- C10 counterexample: a successful mutating status transition of §4.1 —
manager approval via `record_decision` — leaves the report's version exactly
where it was (3), not strictly greater: its UPDATE does not touch `version`. -/
theorem C10_counterexample :
    c10db.reports.map (fun r => (r.version, r.status)) = [(3, ReportStatus.Submitted)]
  ∧ isOkE (record_decision c2mgr 1 c3payload 21 400 c10db) = true
  ∧ (postDb c10db (record_decision c2mgr 1 c3payload 21 400 c10db)).reports.map
      (fun r => (r.version, r.status)) = [(3, ReportStatus.ManagerApproved)] := by decide

/-- C10 (amended): a report's version never decreases, but only `submit_report`
strictly increases it: `record_decision` (manager and finance approval) and
`finalize_reports` leave every report's (id, version) pair unchanged, while a
successful `submit_report` increments the submitted Draft report's version by
exactly one and leaves every other version unchanged. -/
theorem C10_version_monotonicity (actor : AuthenticatedUser) (report_id : Nat)
    (payload : DecisionRequest) (approval_id now : Nat)
    (payloadF : FinalizeRequest) (batch_id : Nat) (lineId : Nat → Nat)
    (adapter : Except String NetSuiteResponse) (rollback_err : Option String) (db : Db) :
    ((postDb db (record_decision actor report_id payload approval_id now db)).reports.map
        (fun r => (r.id, r.version)) = db.reports.map (fun r => (r.id, r.version)))
  ∧ ((postDb db
        (finalize_reports actor payloadF batch_id lineId now adapter rollback_err db)).reports.map
        (fun r => (r.id, r.version)) = db.reports.map (fun r => (r.id, r.version)))
  ∧ (∀ db' rec, submit_report actor report_id now db = Except.ok (db', rec) →
       (∃ r ∈ db.reports, r.id = report_id ∧ r.employee_id = actor.employee_id ∧
          r.status = ReportStatus.Draft ∧ rec.version = r.version + 1)
       ∧ ∀ r' ∈ db'.reports, ∃ r ∈ db.reports, r'.id = r.id ∧
           (r'.version = r.version ∨ r'.version = r.version + 1)) := by
  refine ⟨record_decision_preserves_versions actor report_id payload approval_id now db,
    finalize_preserves_versions actor payloadF batch_id lineId now adapter rollback_err db, ?_⟩
  intro db' rec h
  unfold submit_report at h
  cases hf : db.reports.find? (submitMatch actor report_id) with
  | none =>
    rw [hf] at h
    dsimp only at h
    split at h <;> cases h
  | some r =>
    rw [hf] at h
    dsimp only at h
    cases h
    constructor
    · have hr : r ∈ db.reports := List.mem_of_find?_eq_some hf
      have hp := List.find?_some hf
      unfold submitMatch at hp
      simp only [Bool.and_eq_true, beq_iff_eq] at hp
      exact ⟨r, hr, hp.1.1, hp.1.2, hp.2, rfl⟩
    · intro r' hr'
      rcases List.mem_map.mp hr' with ⟨q, hq, rfl⟩
      by_cases hc : submitMatch actor report_id q = true <;>
        exact ⟨q, hq, by simp [hc], by simp [hc]⟩

/-- The scenario report after submission: status `Submitted`, version bumped
to 2, `updated_at` set to the call's clock. -/
def c10sub : ReportRow :=
  { c7report with
    status := ReportStatus.Submitted
    version := 2
    updated_at := 400 }

/-- The scenario database after submission. -/
def c10subdb : Db := { c7db with reports := [c10sub] }

/-- Witness for the amended C10: submitting the scenario Draft report (version
1) yields version 2 — strictly one greater. -/
theorem C10_version_monotonicity_witness :
    ∃ r ∈ c7db.reports, r.id = 1 ∧ r.employee_id = 5 ∧ r.status = ReportStatus.Draft ∧
      c10sub.version = r.version + 1 :=
  (((C10_version_monotonicity { employee_id := 5, role := Role.Employee } 1 c3payload 21 400
      c1payload 77 (fun i => 100 + i) (Except.ok c1resp) none c7db).2.2)
    c10subdb c10sub rfl).1

end Exprprt
